import Mathlib

/-!
Verification of the Port-Hunter attendance-matching and liveness-validation
pipeline (a facial-recognition classroom-attendance backend).

The repository keeps two parallel implementations of the pipeline:
* `app/services/...` (the "primary" variant: ratio-based head pose,
  `FaceMatchingService`, `LivenessDetectionService`), and
* `facial_recognition_backend/app/services/...` (the "backend" variant:
  `match_faces`, `process_liveness`).

All definitions below are shallow embeddings of the Python functions of those
two variants.  External collaborators (the neural face detector, the embedding
extractor, OpenCV image operations) are passed in as function parameters, since
their internals are black boxes; everything the repository itself computes is
translated concretely.  Machine floats are modelled as exact rationals.
-/

namespace PortHunter

/-! ### Bounding boxes and IoU
From `app/services/face_detection.py`, `FaceDetectionService.iou`
(lines 110-129).  A box is `[x1, y1, x2, y2]`. -/

structure Box where
  x1 : ℚ
  y1 : ℚ
  x2 : ℚ
  y2 : ℚ
deriving DecidableEq, Repr

/-- `interW * interH` of `iou`: the clamped intersection area. -/
def interArea (a b : Box) : ℚ :=
  max 0 (min a.x2 b.x2 - max a.x1 b.x1) * max 0 (min a.y2 b.y2 - max a.y1 b.y1)

/-- `(box[2] - box[0]) * (box[3] - box[1])` of `iou`. -/
def boxArea (a : Box) : ℚ := (a.x2 - a.x1) * (a.y2 - a.y1)

/-- `unionArea = boxAArea + boxBArea - interArea` of `iou`. -/
def unionArea (a b : Box) : ℚ := boxArea a + boxArea b - interArea a b

/-- `FaceDetectionService.iou`: intersection over union, returning 0 when the
union area is 0 instead of dividing by zero. -/
def iou (a b : Box) : ℚ :=
  if unionArea a b = 0 then 0 else interArea a b / unionArea a b

/-! ### Duplicate suppression
From `app/services/face_detection.py`, `FaceDetectionService.remove_duplicates`
(lines 131-144).  The Python code reads only `f.bbox` of each detection, so a
detected face is modelled by its box. -/

structure DFace where
  bbox : Box
deriving DecidableEq, Repr

/-- The loop of `remove_duplicates`: `unique_faces` is the accumulator; a face
is dropped as soon as its IoU with one already-kept face exceeds the
threshold (`> iou_threshold` in the source). -/
def removeDuplicatesAux (thr : ℚ) : List DFace → List DFace → List DFace
  | kept, [] => kept
  | kept, f :: fs =>
      if kept.all fun uf => decide (iou f.bbox uf.bbox ≤ thr) then
        removeDuplicatesAux thr (kept ++ [f]) fs
      else
        removeDuplicatesAux thr kept fs

/-- `FaceDetectionService.remove_duplicates`. -/
def removeDuplicates (thr : ℚ) (faces : List DFace) : List DFace :=
  removeDuplicatesAux thr [] faces

/-! ### Basic IoU lemmas -/

lemma interArea_comm (a b : Box) : interArea a b = interArea b a := by
  unfold interArea
  rw [min_comm a.x2 b.x2, max_comm a.x1 b.x1, min_comm a.y2 b.y2,
    max_comm a.y1 b.y1]

lemma unionArea_comm (a b : Box) : unionArea a b = unionArea b a := by
  unfold unionArea
  rw [interArea_comm, add_comm]

lemma iou_comm (a b : Box) : iou a b = iou b a := by
  unfold iou
  rw [interArea_comm, unionArea_comm]

lemma interArea_nonneg (a b : Box) : 0 ≤ interArea a b :=
  mul_nonneg (le_max_left _ _) (le_max_left _ _)

/-! ### Dedup idempotence machinery (claim C8)
The output of `remove_duplicates` is pairwise below the threshold, and any
pairwise-below-threshold list is a fixed point of the greedy loop. -/

/-- Two faces are mutually non-duplicate at threshold `thr`. -/
def BelowThr (thr : ℚ) (a b : DFace) : Prop := iou a.bbox b.bbox ≤ thr

lemma belowThr_symm {thr : ℚ} {a b : DFace} (h : BelowThr thr a b) :
    BelowThr thr b a := by
  unfold BelowThr at *
  rwa [iou_comm]

lemma removeDuplicatesAux_pairwise (thr : ℚ) :
    ∀ (rest kept : List DFace), kept.Pairwise (BelowThr thr) →
      (removeDuplicatesAux thr kept rest).Pairwise (BelowThr thr) := by
  intro rest
  induction rest with
  | nil => intro kept h; simpa [removeDuplicatesAux] using h
  | cons f fs ih =>
    intro kept h
    rw [removeDuplicatesAux]
    by_cases hc : kept.all fun uf => decide (iou f.bbox uf.bbox ≤ thr)
    · rw [if_pos hc]
      apply ih
      rw [List.pairwise_append]
      refine ⟨h, List.pairwise_singleton _ _, ?_⟩
      intro a ha b hb
      rw [List.mem_singleton] at hb
      subst hb
      have := (List.all_eq_true.mp hc) a ha
      exact belowThr_symm (by simpa using this)
    · rw [if_neg hc]
      exact ih kept h

lemma removeDuplicatesAux_fixed (thr : ℚ) :
    ∀ (rest kept : List DFace), (kept ++ rest).Pairwise (BelowThr thr) →
      removeDuplicatesAux thr kept rest = kept ++ rest := by
  intro rest
  induction rest with
  | nil => intro kept _; simp [removeDuplicatesAux]
  | cons f fs ih =>
    intro kept h
    rw [removeDuplicatesAux]
    have hc : kept.all (fun uf => decide (iou f.bbox uf.bbox ≤ thr)) = true := by
      rw [List.all_eq_true]
      intro uf huf
      have hcross := (List.pairwise_append.mp h).2.2 uf huf f (by simp)
      simpa using belowThr_symm hcross
    rw [if_pos hc]
    have hre : kept ++ f :: fs = (kept ++ [f]) ++ fs := by simp
    rw [ih (kept ++ [f]) (by rw [← hre]; exact h)]
    simp

/-- CLAIM C8 — The duplicate-removal operation is idempotent: applying
`remove_duplicates` to its own output returns that output unchanged, for every
list of detected faces and every IoU threshold. -/
theorem remove_duplicates_idempotent (thr : ℚ) (faces : List DFace) :
    removeDuplicates thr (removeDuplicates thr faces) =
      removeDuplicates thr faces := by
  unfold removeDuplicates
  have hp : (removeDuplicatesAux thr [] faces).Pairwise (BelowThr thr) :=
    removeDuplicatesAux_pairwise thr faces [] (List.Pairwise.nil)
  have := removeDuplicatesAux_fixed thr (removeDuplicatesAux thr [] faces) [] (by simpa using hp)
  simpa using this

/-! ### IoU correctness (claim C5) -/

/-- CLAIM C5 — IoU of non-overlapping boxes is 0; IoU of a box (satisfying the
bounding-box invariant `x1 < x2`, `y1 < y2`, hence of positive area) with
itself is 1; and when the union area is 0 the function returns 0 instead of
dividing by zero. -/
theorem iou_correct :
    (∀ a b : Box, (min a.x2 b.x2 ≤ max a.x1 b.x1 ∨ min a.y2 b.y2 ≤ max a.y1 b.y1) →
      iou a b = 0) ∧
    (∀ a : Box, a.x1 < a.x2 → a.y1 < a.y2 → iou a a = 1) ∧
    (∀ a b : Box, unionArea a b = 0 → iou a b = 0) := by
  refine ⟨?_, ?_, ?_⟩
  · intro a b h
    have hinter : interArea a b = 0 := by
      unfold interArea
      rcases h with h | h
      · rw [max_eq_left (by linarith), zero_mul]
      · rw [max_eq_left (sub_nonpos.mpr h), mul_zero]
    unfold iou
    rw [hinter]
    split <;> simp
  · intro a hx hy
    have hAi : interArea a a = boxArea a := by
      unfold interArea boxArea
      rw [min_self, max_self, min_self, max_self,
        max_eq_right (by linarith), max_eq_right (by linarith)]
    have hA : 0 < boxArea a := mul_pos (by linarith) (by linarith)
    unfold iou unionArea
    rw [hAi]
    rw [if_neg (by linarith)]
    field_simp
  · intro a b h
    unfold iou
    rw [if_pos h]

/-- Witness for C5 at concrete boxes: disjoint unit boxes give 0, the unit box
against itself gives 1, and the degenerate point-box pair gives 0. -/
theorem iou_correct_witness :
    iou ⟨0, 0, 1, 1⟩ ⟨2, 2, 3, 3⟩ = 0 ∧
    iou ⟨0, 0, 1, 1⟩ ⟨0, 0, 1, 1⟩ = 1 ∧
    iou ⟨0, 0, 0, 0⟩ ⟨0, 0, 0, 0⟩ = 0 :=
  ⟨iou_correct.1 ⟨0, 0, 1, 1⟩ ⟨2, 2, 3, 3⟩ (by norm_num),
   iou_correct.2.1 ⟨0, 0, 1, 1⟩ (by norm_num) (by norm_num),
   iou_correct.2.2 ⟨0, 0, 0, 0⟩ ⟨0, 0, 0, 0⟩
     (by norm_num [unionArea, boxArea, interArea])⟩

/-! ### Embeddings and similarity
From `app/services/face_recognition.py`.  An embedding is a vector of floats,
modelled as a list of rationals. -/

/-- Dot product, `np.dot` on equal-length vectors. -/
def dot (a b : List ℚ) : ℚ := (List.zipWith (· * ·) a b).sum

/-- `FaceRecognitionService.compute_similarity`: dot product clipped to
`[0, 1]` by `np.clip(similarity, 0, 1)`. -/
def computeSimilarity (a b : List ℚ) : ℚ := min 1 (max 0 (dot a b))

lemma computeSimilarity_nonneg (a b : List ℚ) : 0 ≤ computeSimilarity a b :=
  le_min (by norm_num) (le_max_left 0 _)

/-! ### Single-face matching (claim C1)
From `app/services/matching.py`, `FaceMatchingService.match_single_face`
(lines 20-80).  A student record carries `id`, `full_name`,
`admission_number` and the stored reference embeddings. -/

structure Student where
  id : ℕ
  fullName : String
  admissionNumber : String
  embeddings : List (List ℚ)
deriving DecidableEq, Repr

/-- The dictionary `match_single_face` builds for the current best student. -/
structure Match where
  studentId : ℕ
  studentName : String
  admissionNumber : String
  similarityScore : ℚ
deriving DecidableEq, Repr

/-- The inner loop of `match_single_face`: maximum similarity of the query
against one student's stored embeddings, starting from `max_similarity = 0`. -/
def maxSimilarity (q : List ℚ) (embs : List (List ℚ)) : ℚ :=
  embs.foldl (fun m e => if m < computeSimilarity q e then computeSimilarity q e else m) 0

/-- One step of the outer loop of `match_single_face`: skip students with no
embeddings, update `(best_match, best_similarity)` only on a strict
improvement. -/
def matchStep (q : List ℚ) (acc : Option Match × ℚ) (st : Student) :
    Option Match × ℚ :=
  if st.embeddings.isEmpty then acc
  else
    let ms := maxSimilarity q st.embeddings
    if acc.2 < ms then
      (some ⟨st.id, st.fullName, st.admissionNumber, ms⟩, ms)
    else acc

/-- The outer loop of `match_single_face`, starting from
`best_match = None`, `best_similarity = 0.0`. -/
def matchFold (q : List ℚ) (students : List Student) : Option Match × ℚ :=
  students.foldl (matchStep q) (none, 0)

/-- `FaceMatchingService.match_single_face`: the best match is returned only
when it exists and its similarity reaches the configured threshold. -/
def matchSingleFace (threshold : ℚ) (q : List ℚ) (students : List Student) :
    Option Match :=
  let bm := matchFold q students
  if bm.1.isSome ∧ threshold ≤ bm.2 then bm.1 else none

/-! ### Multi-face matching (claims C1, C10)
From `app/services/matching.py`, `FaceMatchingService.match_multiple_faces`
(lines 82-140). -/

/-- Per-face metadata dictionary; `metadata.get(...)` returns `None` for a
missing key, hence the `Option` fields.  The landmark array is abstract. -/
structure Meta where
  bbox : Option Box
  confidence : Option ℚ
  landmarks : Option ℕ
deriving DecidableEq, Repr

/-- `metadata = {}` when the index runs past `detected_faces_metadata`. -/
def defaultMeta : Meta := ⟨none, none, none⟩

/-- An entry of `matched_students`: `{**match_result, 'bbox': ...,
'detection_confidence': ...}`. -/
structure MatchedRec where
  mtch : Match
  bbox : Option Box
  detectionConfidence : Option ℚ
deriving DecidableEq, Repr

/-- An entry of `unknown_faces`. -/
structure UnknownRec where
  embedding : List ℚ
  bbox : Option Box
  detectionConfidence : Option ℚ
  landmarks : Option ℕ
deriving DecidableEq, Repr

/-- Loop state of `match_multiple_faces`: the two output lists and the
`matched_student_ids` set. -/
structure MMFState where
  matched : List MatchedRec
  unknownFaces : List UnknownRec
  matchedIds : Finset ℕ
deriving DecidableEq

/-- One iteration of the `match_multiple_faces` loop: a successful match is
recorded only if its student id is not already claimed (a face whose student
is already claimed is discarded entirely); an unmatched face becomes an
unknown-face record. -/
def mmfStep (threshold : ℚ) (students : List Student) (st : MMFState)
    (q : List ℚ) (meta : Meta) : MMFState :=
  match matchSingleFace threshold q students with
  | some m =>
      if m.studentId ∈ st.matchedIds then st
      else
        { st with
          matched := st.matched ++ [⟨m, meta.bbox, meta.confidence⟩],
          matchedIds := insert m.studentId st.matchedIds }
  | none =>
      { st with
        unknownFaces :=
          st.unknownFaces ++ [⟨q, meta.bbox, meta.confidence, meta.landmarks⟩] }

/-- The loop of `match_multiple_faces`; `metadata[idx] if idx < len(...) else
quote-empty-dict` is realized by consuming the metadata list in lockstep. -/
def mmfGo (threshold : ℚ) (students : List Student) :
    MMFState → List (List ℚ) → List Meta → MMFState
  | st, [], _ => st
  | st, q :: qs, metas =>
      mmfGo threshold students
        (mmfStep threshold students st q (metas.headD defaultMeta)) qs metas.tail

/-- `FaceMatchingService.match_multiple_faces`. -/
def matchMultipleFaces (threshold : ℚ) (queryEmbeddings : List (List ℚ))
    (students : List Student) (metas : List Meta) : MMFState :=
  mmfGo threshold students ⟨[], [], ∅⟩ queryEmbeddings metas

/-! ### The threshold gate (claim C1) -/

lemma maxSimilarity_foldl_lt (q : List ℚ) (th : ℚ) :
    ∀ (embs : List (List ℚ)) (m : ℚ),
      (∀ e ∈ embs, computeSimilarity q e < th) → m < th →
      embs.foldl
        (fun m e => if m < computeSimilarity q e then computeSimilarity q e else m)
        m < th := by
  intro embs
  induction embs with
  | nil => intro m _ hm; simpa using hm
  | cons e es ih =>
    intro m h hm
    rw [List.foldl_cons]
    apply ih
    · intro x hx
      exact h x (List.mem_cons_of_mem _ hx)
    · by_cases hc : m < computeSimilarity q e
      · rw [if_pos hc]
        exact h e (List.mem_cons_self _ _)
      · rw [if_neg hc]
        exact hm

lemma matchFold_isSome_lt (th : ℚ) (q : List ℚ) :
    ∀ (students : List Student) (acc : Option Match × ℚ),
      (∀ s ∈ students, ∀ e ∈ s.embeddings, computeSimilarity q e < th) →
      (acc.1.isSome = true → acc.2 < th) →
      ((students.foldl (matchStep q) acc).1.isSome = true →
        (students.foldl (matchStep q) acc).2 < th) := by
  intro students
  induction students with
  | nil => intro acc _ hacc; simpa using hacc
  | cons st sts ih =>
    intro acc h hacc
    rw [List.foldl_cons]
    apply ih
    · intro s hs e he
      exact h s (List.mem_cons_of_mem _ hs) e he
    · intro hsome
      unfold matchStep at hsome ⊢
      by_cases hemp : st.embeddings.isEmpty
      · rw [if_pos hemp] at hsome ⊢
        exact hacc hsome
      · rw [if_neg hemp] at hsome ⊢
        by_cases hup : acc.2 < maxSimilarity q st.embeddings
        · rw [if_pos hup] at hsome ⊢
          obtain ⟨e0, es0, he0⟩ : ∃ e0 es0, st.embeddings = e0 :: es0 := by
            cases hst : st.embeddings with
            | nil => rw [hst] at hemp; simp at hemp
            | cons a as => exact ⟨a, as, rfl⟩
          have hall : ∀ e ∈ st.embeddings, computeSimilarity q e < th := fun e he =>
            h st (List.mem_cons_self _ _) e he
          have hth : (0 : ℚ) < th :=
            lt_of_le_of_lt (computeSimilarity_nonneg q e0)
              (hall e0 (by rw [he0]; exact List.mem_cons_self _ _))
          exact maxSimilarity_foldl_lt q th st.embeddings 0 hall hth
        · rw [if_neg hup] at hsome ⊢
          exact hacc hsome

/-- CLAIM C1 — If every stored embedding of every roster entry has similarity
strictly below the threshold against the query face, `match_single_face`
returns no match, and the `match_multiple_faces` loop step turns the face into
an unknown-face record (even though the below-threshold similarity is the best
available). -/
theorem match_threshold_gate (threshold : ℚ) (q : List ℚ)
    (students : List Student)
    (h : ∀ s ∈ students, ∀ e ∈ s.embeddings, computeSimilarity q e < threshold) :
    matchSingleFace threshold q students = none ∧
    ∀ (st : MMFState) (meta : Meta),
      mmfStep threshold students st q meta =
        { st with
          unknownFaces :=
            st.unknownFaces ++ [⟨q, meta.bbox, meta.confidence, meta.landmarks⟩] } := by
  have hnone : matchSingleFace threshold q students = none := by
    unfold matchSingleFace
    by_cases hsome : (matchFold q students).1.isSome = true
    · have hlt : (matchFold q students).2 < threshold :=
        matchFold_isSome_lt threshold q students (none, 0) h (by simp) hsome
      rw [if_neg]
      intro hcon
      exact absurd hcon.2 (not_le.mpr hlt)
    · rw [if_neg]
      intro hcon
      exact hsome hcon.1
  refine ⟨hnone, ?_⟩
  intro st meta
  unfold mmfStep
  rw [hnone]

/-- Witness for C1: one student whose single stored embedding is orthogonal to
the query (similarity 0 < threshold 1/2) yields no match. -/
theorem match_threshold_gate_witness :
    matchSingleFace (1/2) [1] [⟨1, "A", "X", [[0]]⟩] = none :=
  (match_threshold_gate (1/2) [1] [⟨1, "A", "X", [[0]]⟩]
    (by
      intro s hs e he
      rw [List.mem_singleton] at hs
      subst hs
      simp only [List.mem_singleton] at he
      subst he
      norm_num [computeSimilarity, dot])).1

/-! ### Faces whose student is already claimed are dropped (claim C10) -/

/-- A roster of one student whose stored embedding equals the query `[1]`. -/
def exStudentA : Student := ⟨1, "A", "X", [[1]]⟩

/-- CLAIM C10 — In `match_multiple_faces`, a face whose best above-threshold
match is a student already claimed by an earlier face is discarded entirely:
the loop step leaves the state unchanged (neither matched nor unknown grows).
Consequently matched + unknown can be strictly smaller than the number of
faces, as the concrete two-faces-one-student run shows. -/
theorem duplicate_face_discarded :
    (∀ (threshold : ℚ) (students : List Student) (st : MMFState)
        (q : List ℚ) (meta : Meta) (m : Match),
        matchSingleFace threshold q students = some m →
        m.studentId ∈ st.matchedIds →
        mmfStep threshold students st q meta = st) ∧
    (matchMultipleFaces (1/2) [[1], [1]] [exStudentA]
          [defaultMeta, defaultMeta]).matched.length +
      (matchMultipleFaces (1/2) [[1], [1]] [exStudentA]
          [defaultMeta, defaultMeta]).unknownFaces.length <
      ([[1], [1]] : List (List ℚ)).length := by
  constructor
  · intro threshold students st q meta m hm hmem
    unfold mmfStep
    rw [hm]
    exact if_pos hmem
  · have hms : matchSingleFace (1/2) [1] [exStudentA] =
        some ⟨1, "A", "X", 1⟩ := by
      norm_num [matchSingleFace, matchFold, matchStep, maxSimilarity,
        computeSimilarity, dot, exStudentA, List.foldl_cons, List.foldl_nil]
    have h1 : mmfStep (1/2) [exStudentA] ⟨[], [], ∅⟩ [1] defaultMeta =
        ⟨[⟨⟨1, "A", "X", 1⟩, none, none⟩], [], {1}⟩ := by
      unfold mmfStep
      rw [hms]
      simp [defaultMeta]
    have h2 : mmfStep (1/2) [exStudentA]
        ⟨[⟨⟨1, "A", "X", 1⟩, none, none⟩], [], {1}⟩ [1] defaultMeta =
        ⟨[⟨⟨1, "A", "X", 1⟩, none, none⟩], [], {1}⟩ := by
      unfold mmfStep
      rw [hms]
      simp
    unfold matchMultipleFaces
    simp only [mmfGo, List.headD_cons, List.tail_cons]
    rw [h1, h2]
    simp

/-- Witness for C10 applying the general discard step at a concrete claimed
student: the state with student 1 already claimed is left unchanged. -/
theorem duplicate_face_discarded_witness :
    mmfStep (1/2) [exStudentA] ⟨[], [], {1}⟩ [1] defaultMeta =
      ⟨[], [], {1}⟩ :=
  duplicate_face_discarded.1 (1/2) [exStudentA] ⟨[], [], {1}⟩ [1] defaultMeta
    ⟨1, "A", "X", 1⟩
    (by
      norm_num [matchSingleFace, matchFold, matchStep, maxSimilarity,
        computeSimilarity, dot, exStudentA, List.foldl_cons, List.foldl_nil])
    (by simp)

/-! ### Liveness detection
From `app/services/liveness_detection.py`, `LivenessDetectionService`.
Frames, cropped faces and aligned faces are abstract handles (natural
numbers); the external collaborators (face detector, normalizer, quality
computation, embedding extractor) are function parameters. -/

/-- The four pose labels of `POSE_REQUIREMENTS` /
`group_frames_by_pose` (`validate_pose` returns false for any other label,
and `group_frames_by_pose` only ever produces these four). -/
inductive Pose where
  | center
  | tiltDown
  | turnRight
  | turnLeft
deriving DecidableEq, Repr

/-- Head-pose angles in degrees, the result dictionary of
`estimate_head_pose`. -/
structure Angles where
  yaw : ℚ
  pitch : ℚ
  roll : ℚ
deriving DecidableEq, Repr

/-- `POSE_REQUIREMENTS`: inclusive `(yaw_min, yaw_max)` and
`(pitch_min, pitch_max)` ranges per pose. -/
def poseRequirements : Pose → (ℚ × ℚ) × (ℚ × ℚ)
  | .center => ((-15, 15), (-15, 15))
  | .tiltDown => ((-15, 15), (15, 45))
  | .turnRight => ((20, 50), (-15, 15))
  | .turnLeft => ((-50, -20), (-15, 15))

/-- `LivenessDetectionService.validate_pose`: both yaw and pitch must fall in
the expected pose's inclusive range. -/
def validatePose (angles : Angles) (expectedPose : Pose) : Bool :=
  let req := poseRequirements expectedPose
  decide (req.1.1 ≤ angles.yaw ∧ angles.yaw ≤ req.1.2) &&
    decide (req.2.1 ≤ angles.pitch ∧ angles.pitch ≤ req.2.2)

/-- `LivenessDetectionService.estimate_head_pose`: the underlying
landmark-ratio computation is the external parameter `est`; when it raises
(`none`), the `except` branch returns yaw 0, pitch 0, roll 0. -/
def estimateHeadPose (est : ℕ → Option Angles) (landmarks : ℕ) : Angles :=
  (est landmarks).getD ⟨0, 0, 0⟩

/-- The `quality` dictionary of `quality_check`, restricted to the two keys
the liveness pipeline consumes: the sharpness score (sort key) and the
`overall_quality` flag. -/
structure Quality where
  sharpness : ℚ
  overallQuality : Bool
deriving DecidableEq, Repr

/-- The primary detection of a frame: cropped face, landmarks and detector
confidence (the first element of `detect_faces_in_image`). -/
structure DetOut where
  face : ℕ
  landmarks : ℕ
  confidence : ℚ
deriving DecidableEq, Repr

/-- The frame dictionary returned by `process_frame`. -/
structure FrameData where
  face : ℕ
  normalizedFace : ℕ
  angles : Angles
  isValidPose : Bool
  quality : Quality
  confidence : ℚ
deriving DecidableEq, Repr

/-- `LivenessDetectionService.process_frame`: detect the primary face
(`det`), reject on detector confidence < 0.5, estimate head pose with the
zero-angles fallback, validate against the expected pose, normalize
(`norm`, rejecting on failure) and attach the quality report (`qc`) — the
quality result is recorded but does not cause rejection here. -/
def processFrame (det : ℕ → Option DetOut) (est : ℕ → Option Angles)
    (norm : ℕ → ℕ → Option ℕ) (qc : ℕ → Quality)
    (frame : ℕ) (expectedPose : Pose) : Option FrameData :=
  match det frame with
  | none => none
  | some d =>
      if d.confidence < 1/2 then none
      else
        let angles := estimateHeadPose est d.landmarks
        let validPose := validatePose angles expectedPose
        match norm d.face d.landmarks with
        | none => none
        | some nf =>
            some ⟨d.face, nf, angles, validPose, qc nf, d.confidence⟩

/-- The frame filter of `process_liveness_video`: a frame is accepted for its
pose iff `process_frame` succeeds and `is_valid_pose` is true. -/
def acceptedFrames (procF : ℕ → Pose → Option FrameData) (pose : Pose)
    (frames : List ℕ) : List FrameData :=
  frames.filterMap fun f =>
    match procF f pose with
    | some fd => if fd.isValidPose then some fd else none
    | none => none

/-- Stable insertion for descending-by-sharpness sorting (equal keys keep the
original order, as Python's stable `sorted(..., reverse=True)` does). -/
def insertBySharpness (x : FrameData) : List FrameData → List FrameData
  | [] => [x]
  | y :: ys =>
      if y.quality.sharpness ≤ x.quality.sharpness then x :: y :: ys
      else y :: insertBySharpness x ys

/-- `sorted(valid_frames, key=sharpness, reverse=True)`. -/
def sortBySharpness (l : List FrameData) : List FrameData :=
  l.foldr insertBySharpness []

/-- The per-pose face collection of `process_liveness_video`: when the pose
reached `min_frames_per_pose` accepted frames, the normalized faces of the
top-3 accepted frames by sharpness. -/
def topFaces (minFrames : ℕ) (vf : List FrameData) : List ℕ :=
  if minFrames ≤ vf.length then
    ((sortBySharpness vf).take 3).map (·.normalizedFace)
  else []

/-- The input of `process_liveness_video`: frames grouped under the four
required pose labels, exactly as `group_frames_by_pose` produces them. -/
structure FramesByPose where
  center : List ℕ
  tiltDown : List ℕ
  turnRight : List ℕ
  turnLeft : List ℕ
deriving DecidableEq, Repr

/-- The result dictionary of `process_liveness_video` (message strings
abbreviated). -/
structure LivenessResult where
  isLive : Bool
  posesDetected : Pose → Bool
  embeddings : List (List ℚ)
  message : String

/-- `LivenessDetectionService.process_liveness_video`: per pose, count
accepted frames and compare with `min_frames_per_pose`; collect top-3 faces
of each valid pose; if all four poses are valid, extract embeddings
(`extract` is `extract_embedding`, per-item failures dropped as in
`extract_embeddings_from_list`) and succeed only if at least one embedding
came back. -/
def poseFrames (inp : FramesByPose) : Pose → List ℕ
  | .center => inp.center
  | .tiltDown => inp.tiltDown
  | .turnRight => inp.turnRight
  | .turnLeft => inp.turnLeft

/-- The `pose_validations` dictionary: a pose is valid iff its accepted-frame
count reaches `min_frames_per_pose`. -/
def poseValid (procF : ℕ → Pose → Option FrameData) (minFrames : ℕ)
    (inp : FramesByPose) (p : Pose) : Bool :=
  decide (minFrames ≤ (acceptedFrames procF p (poseFrames inp p)).length)

def processLivenessVideo (procF : ℕ → Pose → Option FrameData)
    (extract : ℕ → Option (List ℚ)) (minFrames : ℕ) (inp : FramesByPose) :
    LivenessResult :=
  let poseVal := poseValid procF minFrames inp
  let faces :=
    topFaces minFrames (acceptedFrames procF .center inp.center) ++
    topFaces minFrames (acceptedFrames procF .tiltDown inp.tiltDown) ++
    topFaces minFrames (acceptedFrames procF .turnRight inp.turnRight) ++
    topFaces minFrames (acceptedFrames procF .turnLeft inp.turnLeft)
  if poseVal .center && poseVal .tiltDown && poseVal .turnRight &&
      poseVal .turnLeft then
    if faces.length ≠ 0 then
      let embs := faces.filterMap extract
      if embs.length ≠ 0 then
        ⟨true, poseVal, embs, "Liveness check passed"⟩
      else
        ⟨false, poseVal, [], "Failed to extract embeddings from faces"⟩
    else ⟨false, poseVal, [], "No valid faces collected from video"⟩
  else
    ⟨false, poseVal, [], "Failed liveness check. Missing or invalid poses"⟩

/-! ### Liveness all-or-nothing (claim C2) -/

lemma length_insertBySharpness (x : FrameData) :
    ∀ l : List FrameData, (insertBySharpness x l).length = l.length + 1 := by
  intro l
  induction l with
  | nil => rfl
  | cons y ys ih =>
    unfold insertBySharpness
    split
    · simp
    · simpa using ih

lemma length_sortBySharpness (l : List FrameData) :
    (sortBySharpness l).length = l.length := by
  unfold sortBySharpness
  induction l with
  | nil => rfl
  | cons x xs ih =>
    rw [List.foldr_cons, length_insertBySharpness, ih, List.length_cons]

lemma topFaces_length_pos {minFrames : ℕ} {vf : List FrameData}
    (hmin : 1 ≤ minFrames) (h : minFrames ≤ vf.length) :
    0 < (topFaces minFrames vf).length := by
  unfold topFaces
  rw [if_pos h, List.length_map, List.length_take, length_sortBySharpness]
  omega

lemma length_filterMap_of_isSome {α β : Type} (f : α → Option β)
    (hf : ∀ x, (f x).isSome = true) :
    ∀ l : List α, (l.filterMap f).length = l.length := by
  intro l
  induction l with
  | nil => rfl
  | cons x xs ih =>
    rw [List.filterMap_cons]
    cases hx : f x with
    | none =>
      have h := hf x
      rw [hx] at h
      simp at h
    | some b => simp [ih]

/-- CLAIM C2 — With `min_frames_per_pose ≥ 1` (the configured default is 15)
and an embedding extractor that honours its contract (it returns an embedding
for every face), `is_live` is true iff each of the four required poses has at
least `min_frames_per_pose` accepted frames; in particular dropping any
single pose below the minimum makes `is_live` false. -/
theorem liveness_all_or_nothing (procF : ℕ → Pose → Option FrameData)
    (extract : ℕ → Option (List ℚ)) (minFrames : ℕ) (inp : FramesByPose)
    (hmin : 1 ≤ minFrames) (hext : ∀ f, (extract f).isSome = true) :
    (processLivenessVideo procF extract minFrames inp).isLive = true ↔
      (minFrames ≤ (acceptedFrames procF .center inp.center).length ∧
       minFrames ≤ (acceptedFrames procF .tiltDown inp.tiltDown).length ∧
       minFrames ≤ (acceptedFrames procF .turnRight inp.turnRight).length ∧
       minFrames ≤ (acceptedFrames procF .turnLeft inp.turnLeft).length) := by
  unfold processLivenessVideo
  by_cases hcond : (poseValid procF minFrames inp .center &&
      poseValid procF minFrames inp .tiltDown &&
      poseValid procF minFrames inp .turnRight &&
      poseValid procF minFrames inp .turnLeft) = true
  · have h4 := hcond
    simp only [Bool.and_eq_true, poseValid, poseFrames,
      decide_eq_true_eq] at h4
    rw [if_pos hcond]
    have hfaces : (topFaces minFrames
        (acceptedFrames procF .center inp.center) ++
        topFaces minFrames (acceptedFrames procF .tiltDown inp.tiltDown) ++
        topFaces minFrames (acceptedFrames procF .turnRight inp.turnRight) ++
        topFaces minFrames (acceptedFrames procF .turnLeft inp.turnLeft)).length ≠ 0 := by
      simp only [List.length_append]
      have := topFaces_length_pos hmin h4.1.1.1
      omega
    rw [if_pos hfaces]
    rw [if_pos (by rw [length_filterMap_of_isSome extract hext]; exact hfaces)]
    simpa using ⟨h4.1.1.1, h4.1.1.2, h4.1.2, h4.2⟩
  · rw [if_neg hcond]
    simp only [Bool.and_eq_true, poseValid, poseFrames,
      decide_eq_true_eq] at hcond
    constructor
    · intro hfalse
      exact absurd hfalse (by simp)
    · intro h4
      exact absurd ⟨⟨⟨h4.1, h4.2.1⟩, h4.2.2.1⟩, h4.2.2.2⟩ hcond

/-- A frame processor that accepts every frame for every pose, used by the
C2 witness. -/
def allValidProc : ℕ → Pose → Option FrameData :=
  fun f _ => some ⟨f, f, ⟨0, 0, 0⟩, true, ⟨100, true⟩, 1⟩

/-- Witness for C2: one frame per pose, minimum one frame per pose, and a
total extractor give a live outcome. -/
theorem liveness_all_or_nothing_witness :
    (processLivenessVideo allValidProc (fun _ => some [1]) 1
      ⟨[0], [1], [2], [3]⟩).isLive = true :=
  (liveness_all_or_nothing allValidProc (fun _ => some [1]) 1
      ⟨[0], [1], [2], [3]⟩ (by norm_num) (fun f => rfl)).mpr
    (by simp [acceptedFrames, allValidProc])

/-! ### Head-pose fallback validates as center (claim C9) -/

/-- CLAIM C9 — When the head-pose estimation raises (`est` fails),
`estimate_head_pose` returns yaw 0, pitch 0, roll 0; those angles satisfy the
center pose ranges; hence a frame submitted under the center label whose pose
estimation fails internally (and which passes detection, the confidence floor
and normalization) is validated as a correct center-pose frame. -/
theorem pose_fallback_center (det : ℕ → Option DetOut)
    (norm : ℕ → ℕ → Option ℕ) (qc : ℕ → Quality) (frame : ℕ) (d : DetOut)
    (nf : ℕ) (hdet : det frame = some d) (hconf : ¬ d.confidence < 1/2)
    (hnorm : norm d.face d.landmarks = some nf) :
    estimateHeadPose (fun _ => none) d.landmarks = ⟨0, 0, 0⟩ ∧
    validatePose ⟨0, 0, 0⟩ .center = true ∧
    processFrame det (fun _ => none) norm qc frame .center =
      some ⟨d.face, nf, ⟨0, 0, 0⟩, true, qc nf, d.confidence⟩ := by
  have hval : validatePose ⟨0, 0, 0⟩ .center = true := by
    simp only [validatePose, poseRequirements]
    norm_num
  refine ⟨rfl, hval, ?_⟩
  unfold processFrame
  rw [hdet]
  simp only [if_neg hconf, hnorm]
  rw [show estimateHeadPose (fun _ => none) d.landmarks = ⟨0, 0, 0⟩ from rfl,
    hval]

/-- Witness for C9: concrete externals where pose estimation always fails and
everything else succeeds; the center frame is accepted as a valid pose. -/
theorem pose_fallback_center_witness :
    processFrame (fun _ => some ⟨5, 7, 1⟩) (fun _ => none)
        (fun _ _ => some 9) (fun _ => ⟨0, false⟩) 0 .center =
      some ⟨5, 9, ⟨0, 0, 0⟩, true, ⟨0, false⟩, 1⟩ :=
  (pose_fallback_center (fun _ => some ⟨5, 7, 1⟩) (fun _ _ => some 9)
      (fun _ => ⟨0, false⟩) 0 ⟨5, 7, 1⟩ 9 rfl (by norm_num) rfl).2.2

/-! ### The quality gate does not gate liveness acceptance (claim C6) -/

/-- All branches of `process_liveness_video` report the same
`pose_validations` dictionary. -/
lemma posesDetected_processLivenessVideo (procF : ℕ → Pose → Option FrameData)
    (extract : ℕ → Option (List ℚ)) (minFrames : ℕ) (inp : FramesByPose) :
    (processLivenessVideo procF extract minFrames inp).posesDetected =
      poseValid procF minFrames inp := by
  simp only [processLivenessVideo]
  split
  · split
    · split <;> rfl
    · rfl
  · rfl

/-- Externals for the C6 counterexample: detection and normalization always
succeed with full confidence, pose estimation returns perfect center angles,
and the quality check fails every crop. -/
def detAlways : ℕ → Option DetOut := fun f => some ⟨f, f, 1⟩

def estCenter : ℕ → Option Angles := fun _ => some ⟨0, 0, 0⟩

def normFirst : ℕ → ℕ → Option ℕ := fun f _ => some f

def qcFail : ℕ → Quality := fun _ => ⟨0, false⟩

def procBadQuality : ℕ → Pose → Option FrameData :=
  processFrame detAlways estCenter normFirst qcFail

/-- The frame data `process_frame` returns for frame 0 under the failing
quality check. -/
def fdBad : FrameData := ⟨0, 0, ⟨0, 0, 0⟩, true, ⟨0, false⟩, 1⟩

/-- COUNTEREXAMPLE to C6 — a center frame whose aligned crop fails the
quality gate (`overall_quality = false`) is nevertheless counted as an
accepted frame: with `min_frames_per_pose = 1` it alone makes the center pose
valid, contradicting the claim that such a frame is rejected and does not
count toward the pose's minimum. -/
theorem quality_gate_not_enforced_cex :
    acceptedFrames procBadQuality .center [0] = [fdBad] ∧
    fdBad.quality.overallQuality = false ∧
    (processLivenessVideo procBadQuality (fun _ => some [1]) 1
        ⟨[0], [0], [0], [0]⟩).posesDetected .center = true := by
  have hpf : procBadQuality 0 .center = some fdBad := by
    unfold procBadQuality processFrame detAlways estCenter normFirst qcFail
      estimateHeadPose fdBad
    norm_num [validatePose, poseRequirements]
  have hacc : acceptedFrames procBadQuality .center [0] = [fdBad] := by
    unfold acceptedFrames
    rw [List.filterMap_cons, hpf]
    simp [fdBad]
  refine ⟨hacc, rfl, ?_⟩
  rw [posesDetected_processLivenessVideo]
  unfold poseValid poseFrames
  rw [hacc]
  simp

/-- The quality report is attached to the frame data but never consulted for
acceptance: changing the quality function only rewrites the recorded quality
of each accepted frame. -/
lemma acceptedFrames_quality_map (det : ℕ → Option DetOut)
    (est : ℕ → Option Angles) (norm : ℕ → ℕ → Option ℕ)
    (qc qc' : ℕ → Quality) (p : Pose) :
    ∀ frames : List ℕ,
      acceptedFrames (processFrame det est norm qc) p frames =
        (acceptedFrames (processFrame det est norm qc') p frames).map
          (fun fd => { fd with quality := qc fd.normalizedFace }) := by
  have hpt : ∀ f : ℕ, processFrame det est norm qc f p =
      (processFrame det est norm qc' f p).map
        (fun fd => { fd with quality := qc fd.normalizedFace }) := by
    intro f
    unfold processFrame
    cases det f with
    | none => rfl
    | some d =>
      simp only []
      split
      · rfl
      · cases norm d.face d.landmarks with
        | none => rfl
        | some nf => rfl
  intro frames
  induction frames with
  | nil => rfl
  | cons f fs ih =>
    unfold acceptedFrames at ih ⊢
    rw [List.filterMap_cons, List.filterMap_cons, hpt f]
    cases processFrame det est norm qc' f p with
    | none => simpa using ih
    | some fd =>
      simp only [Option.map_some']
      dsimp only
      by_cases hv : fd.isValidPose = true
      · rw [if_pos hv, if_pos hv, ih, List.map_cons]
      · rw [if_neg hv, if_neg hv]
        exact ih

/-- AMENDED C6 — In the liveness pipeline the quality gate of `quality_check`
is computed and recorded on each processed frame but does not affect whether
the frame is accepted: for any two quality functions the per-pose
accepted-frame counts, and hence the whole `pose_validations` outcome, are
identical; acceptance depends only on detection, the confidence floor,
normalization success and the pose-range check. -/
theorem quality_gate_invariance (det : ℕ → Option DetOut)
    (est : ℕ → Option Angles) (norm : ℕ → ℕ → Option ℕ)
    (qc qc' : ℕ → Quality) (p : Pose) (frames : List ℕ)
    (extract : ℕ → Option (List ℚ)) (minFrames : ℕ) (inp : FramesByPose) :
    (acceptedFrames (processFrame det est norm qc) p frames).length =
      (acceptedFrames (processFrame det est norm qc') p frames).length ∧
    (processLivenessVideo (processFrame det est norm qc) extract minFrames
        inp).posesDetected =
      (processLivenessVideo (processFrame det est norm qc') extract minFrames
        inp).posesDetected := by
  constructor
  · rw [acceptedFrames_quality_map det est norm qc qc' p frames,
      List.length_map]
  · rw [posesDetected_processLivenessVideo, posesDetected_processLivenessVideo]
    funext p'
    unfold poseValid
    rw [acceptedFrames_quality_map det est norm qc qc' p' (poseFrames inp p'),
      List.length_map]

/-! ### Multi-photo merging, primary variant
From `app/services/matching.py`,
`FaceMatchingService.merge_results_from_multiple_photos` (lines 225-295) and
`get_absent_students` (lines 142-170), and the zero-successful-photos
fallback of `app/routers/attedance.py` (lines 107-118).

`get_absent_students` reads the keys `id`, `full_name` and
`admission_number` of each entry; the record dictionaries that
`merge_results_from_multiple_photos` feeds it carry `student_id` /
`student_name` instead, so the Python dict accesses can raise `KeyError`.
Dictionary field access is therefore modelled with `Option` fields: a `none`
field is a missing key and accessing it is the corresponding error. -/

/-- A student-like dictionary as `get_absent_students` sees it: only the
three accessed keys are modelled, each possibly missing. -/
structure SRec where
  id : Option ℕ
  fullName : Option String
  admissionNumber : Option String
deriving DecidableEq, Repr

/-- An entry of an `absent_students` list:
`{'student_id', 'student_name', 'admission_number', 'status': 'absent'}`. -/
structure AbsentRec where
  studentId : ℕ
  studentName : String
  admissionNumber : String
  status : String
deriving DecidableEq, Repr

/-- View of a `matched_students` record as a dictionary argument of
`get_absent_students`: it has no `id` or `full_name` key. -/
def matchedToSRec (m : MatchedRec) : SRec := ⟨none, none, some m.mtch.admissionNumber⟩

/-- View of an `absent_students` record as a dictionary argument of
`get_absent_students`: it has no `id` or `full_name` key either. -/
def absentToSRec (a : AbsentRec) : SRec := ⟨none, none, some a.admissionNumber⟩

/-- `FaceMatchingService.get_absent_students`: every student whose `id` is
not among the present ids becomes an absent record; accessing a missing key
raises. -/
def getAbsentStudents : List SRec → List ℕ → Except String (List AbsentRec)
  | [], _ => .ok []
  | s :: rest, presentIds =>
      match s.id with
      | none => .error "KeyError: id"
      | some i =>
          if i ∈ presentIds then getAbsentStudents rest presentIds
          else
            match s.fullName, s.admissionNumber with
            | some n, some a =>
                (getAbsentStudents rest presentIds).map
                  (fun l => ⟨i, n, a, "absent"⟩ :: l)
            | none, _ => .error "KeyError: full_name"
            | some _, none => .error "KeyError: admission_number"

/-- The per-photo result dictionary of `process_attendance`, restricted to
the keys `merge_results_from_multiple_photos` consumes. -/
structure PhotoResult where
  totalRegistered : ℕ
  presentStudents : List MatchedRec
  absentStudents : List AbsentRec
  unknownFaces : List UnknownRec
deriving DecidableEq, Repr

/-- The merged result dictionary (totals are Python ints, and
`total_absent` is computed by subtraction). -/
structure MergedResult where
  totalRegistered : ℤ
  totalPresent : ℤ
  totalAbsent : ℤ
  totalUnknownFaces : ℤ
  presentStudents : List MatchedRec
  absentStudents : List AbsentRec
  unknownFaces : List UnknownRec
deriving DecidableEq, Repr

/-- The union loop of `merge_results_from_multiple_photos`: walk all photos
in order and keep the first record seen for each student id. -/
def mergePresentFold (rs : List PhotoResult) : List ℕ × List MatchedRec :=
  rs.foldl
    (fun acc r =>
      r.presentStudents.foldl
        (fun acc2 s =>
          if s.mtch.studentId ∈ acc2.1 then acc2
          else (acc2.1 ++ [s.mtch.studentId], acc2.2 ++ [s]))
        acc)
    ([], [])

/-- `FaceMatchingService.merge_results_from_multiple_photos`.  The
`all_students` list it rebuilds from the first photo's present and absent
records lacks the `id` key, so `get_absent_students` raises whenever that
list is nonempty. -/
def mergeResultsFromMultiplePhotos (rs : List PhotoResult) :
    Except String MergedResult :=
  match rs with
  | [] => .ok ⟨0, 0, 0, 0, [], [], []⟩
  | r0 :: _ =>
      let ip := mergePresentFold rs
      let unknown := rs.foldl (fun acc r => acc ++ r.unknownFaces) []
      let allStudents := r0.presentStudents.map matchedToSRec ++
        r0.absentStudents.map absentToSRec
      match getAbsentStudents allStudents ip.1 with
      | .error e => .error e
      | .ok absent =>
          .ok ⟨r0.totalRegistered, ip.1.length,
            (r0.totalRegistered : ℤ) - ip.1.length, unknown.length,
            ip.2, absent, unknown⟩

/-- The zero-successful-photos fallback of `process_attendance_background`
(`app/routers/attedance.py`, lines 107-118): counts say the whole roster is
absent, but the `absent_students` list is left empty. -/
def sessionFallback (registeredStudents : List Student) : MergedResult :=
  ⟨registeredStudents.length, 0, registeredStudents.length, 0, [], [], []⟩

/-! ### Multi-photo matching, backend variant
From `facial_recognition_backend/app/services/matching.py`, `match_faces`
(lines 38-103), with `cosine_similarity` from
`facial_recognition_backend/app/services/face_recognition.py` (no clipping).
Images, faces and aligned crops are abstract handles; decoding, detection,
landmark lookup, alignment, the quality check and embedding extraction are
the external parameters bundled in `BExt`. -/

structure BExt where
  decode : ℕ → Option ℕ
  detect : ℕ → List ℕ
  landmarksOf : ℕ → Option (List (ℚ × ℚ))
  align : ℕ → List (ℚ × ℚ) → ℕ
  qualityOk : ℕ → Bool
  extract : ℕ → Option (List ℚ)
  cropOf : ℕ → Option ℕ

/-- `cosine_similarity` of the backend variant: a bare dot product. -/
def cosineSimilarity (a b : List ℚ) : ℚ := dot a b

/-- An entry of the backend `present_map`. -/
structure BPresent where
  id : ℕ
  fullName : String
  admissionNumber : String
  confidenceScore : ℚ
deriving DecidableEq, Repr

/-- An entry of the backend `unknown` list (the random uuid is omitted). -/
structure BUnknown where
  confidenceScore : ℚ
  croppedFace : Option ℕ
deriving DecidableEq, Repr

/-- An entry of the backend `absent` list. -/
structure BAbsent where
  id : ℕ
  fullName : String
  admissionNumber : String
deriving DecidableEq, Repr

/-- The nested best-match loop of `match_faces`: best score over every stored
embedding of every student, starting from `best_score = -1.0`. -/
def bestMatch (students : List Student) (emb : List ℚ) : Option Student × ℚ :=
  students.foldl
    (fun acc stu =>
      stu.embeddings.foldl
        (fun acc2 se =>
          if acc2.2 < cosineSimilarity emb se then (some stu, cosineSimilarity emb se)
          else acc2)
        acc)
    (none, -1)

/-- Python dict get on the insertion-ordered `present_map`. -/
def pmGet (m : List (ℕ × BPresent)) (k : ℕ) : Option BPresent :=
  (m.find? fun p => p.1 = k).map (·.2)

/-- Python dict assignment on the insertion-ordered `present_map`: replace in
place if the key exists, append otherwise. -/
def pmSet (m : List (ℕ × BPresent)) (k : ℕ) (v : BPresent) :
    List (ℕ × BPresent) :=
  if m.any fun p => p.1 = k then
    m.map fun p => if p.1 = k then (k, v) else p
  else m ++ [(k, v)]

/-- Loop state of `match_faces`. -/
structure BState where
  presentMap : List (ℕ × BPresent)
  unknown : List BUnknown
deriving DecidableEq, Repr

/-- The per-face body of `match_faces`: skip on missing/short landmarks,
failed quality or failed extraction; otherwise either update `present_map`
(only when the new score is strictly better) or append an unknown-face
record. -/
def bProcessFace (ext : BExt) (threshold : ℚ) (students : List Student)
    (img : ℕ) (st : BState) (face : ℕ) : BState :=
  match ext.landmarksOf face with
  | none => st
  | some lms =>
      if lms.length < 2 then st
      else
        let aligned := ext.align img lms
        if ¬ ext.qualityOk aligned then st
        else
          match ext.extract aligned with
          | none => st
          | some emb =>
              match bestMatch students emb with
              | (some stu, score) =>
                  if threshold ≤ score then
                    let doSet :=
                      match pmGet st.presentMap stu.id with
                      | none => true
                      | some cur => decide (cur.confidenceScore < score)
                    if doSet then
                      { st with
                        presentMap := pmSet st.presentMap stu.id
                          ⟨stu.id, stu.fullName, stu.admissionNumber, score⟩ }
                    else st
                  else
                    { st with
                      unknown := st.unknown ++
                        [⟨if 0 < score then score else 0, ext.cropOf face⟩] }
              | (none, score) =>
                  { st with
                    unknown := st.unknown ++
                      [⟨if 0 < score then score else 0, ext.cropOf face⟩] }

/-- The per-photo body of `match_faces`: photos that fail to decode are
skipped with `continue`. -/
def bProcessPhoto (ext : BExt) (threshold : ℚ) (students : List Student)
    (st : BState) (photo : ℕ) : BState :=
  match ext.decode photo with
  | none => st
  | some img => (ext.detect img).foldl (bProcessFace ext threshold students img) st

/-- The result dictionary of `match_faces`. -/
structure BResult where
  totalPresent : ℕ
  totalAbsent : ℕ
  totalUnknown : ℕ
  present : List BPresent
  absent : List BAbsent
  unknown : List BUnknown
deriving DecidableEq, Repr

/-- `match_faces` of the backend variant. -/
def matchFaces (ext : BExt) (threshold : ℚ) (students : List Student)
    (classroomPhotos : List ℕ) : BResult :=
  let st := classroomPhotos.foldl (bProcessPhoto ext threshold students) ⟨[], []⟩
  let present := st.presentMap.map (·.2)
  let presentIds := present.map (·.id)
  let absent := (students.filter fun s => ¬ s.id ∈ presentIds).map
    fun s => (⟨s.id, s.fullName, s.admissionNumber⟩ : BAbsent)
  ⟨present.length, absent.length, st.unknown.length, present, absent, st.unknown⟩

/-! ### Session-merge claims (C3, C4, C7): concrete evaluations -/

/-- A roster of one student whose stored embedding is `[1]`. -/
def exStudentB : Student := ⟨7, "B", "Y", [[1]]⟩

/-- Externals for a two-photo session: photo 1 yields a face with similarity
3/5 to `exStudentB`, photo 2 one with similarity 9/10. -/
def extTwoScores : BExt where
  decode := fun p => some p
  detect := fun img => [img]
  landmarksOf := fun _ => some [(0, 0), (0, 0)]
  align := fun img _ => img
  qualityOk := fun _ => true
  extract := fun a => if a = 1 then some [3/5] else if a = 2 then some [9/10] else none
  cropOf := fun _ => none

/-- Photo result: `exStudentB` present with similarity 3/5. -/
def prLow : PhotoResult := ⟨1, [⟨⟨7, "B", "Y", 3/5⟩, none, none⟩], [], []⟩

/-- Photo result: `exStudentB` present with similarity 9/10. -/
def prHigh : PhotoResult := ⟨1, [⟨⟨7, "B", "Y", 9/10⟩, none, none⟩], [], []⟩

/-- CLAIM C3 (code bug) — For a student present in two photos with
similarities 3/5 and 9/10, the primary variant
`merge_results_from_multiple_photos` raises `KeyError` (its
`get_absent_students` call reads the `id` key, which the rebuilt record
dictionaries do not have) instead of producing the claimed merged result;
the backend variant `match_faces` on the analogous session realizes the
claim, recording the student exactly once with the highest score 9/10. -/
theorem merge_highest_similarity_bug :
    mergeResultsFromMultiplePhotos [prLow, prHigh] =
      Except.error "KeyError: id" ∧
    (matchFaces extTwoScores (1/2) [exStudentB] [1, 2]).present =
      [⟨7, "B", "Y", 9/10⟩] := by
  constructor
  · norm_num [mergeResultsFromMultiplePhotos, mergePresentFold,
      getAbsentStudents, matchedToSRec, absentToSRec, prLow, prHigh,
      List.foldl_cons, List.foldl_nil]
  · norm_num [matchFaces, bProcessPhoto, bProcessFace, bestMatch, pmGet,
      pmSet, cosineSimilarity, dot, extTwoScores, exStudentB,
      List.foldl_cons, List.foldl_nil, List.find?, List.any]

/-- Two-student roster for the merge-law evaluations. -/
def exStudentX : Student := ⟨1, "X", "AX", [[1, 0]]⟩

def exStudentY : Student := ⟨2, "Y", "AY", [[0, 1]]⟩

/-- Externals where photo 1 shows a face of `exStudentX` (similarity 4/5)
and photo 2 a face of `exStudentY` (similarity 7/10). -/
def extXY : BExt where
  decode := fun p => some p
  detect := fun img => [img]
  landmarksOf := fun _ => some [(0, 0), (0, 0)]
  align := fun img _ => img
  qualityOk := fun _ => true
  extract := fun a =>
    if a = 1 then some [4/5, 0] else if a = 2 then some [0, 7/10] else none
  cropOf := fun _ => none

/-- Photo result of the two-student roster: X present, Y absent. -/
def prPhotoX : PhotoResult :=
  ⟨2, [⟨⟨1, "X", "AX", 4/5⟩, none, none⟩], [⟨2, "Y", "AY", "absent"⟩], []⟩

/-- Photo result of the two-student roster: Y present, X absent. -/
def prPhotoY : PhotoResult :=
  ⟨2, [⟨⟨2, "Y", "AY", 7/10⟩, none, none⟩], [⟨1, "X", "AX", "absent"⟩], []⟩

/-- The set of present roster ids of a backend session result. -/
def presentIdsOf (r : BResult) : Finset ℕ := (r.present.map (·.id)).toFinset

/-- CLAIM C7 (code bug) — The primary variant
`merge_results_from_multiple_photos` raises `KeyError` on every same-roster
photo-result list in either order (so no present set is produced at all,
contrary to its own docstring's union logic), while the backend session
implementation `match_faces` realizes the claimed law: the present-id set is
the same for photos `[1, 2]` and `[2, 1]`, and for the duplicated photo list
`[1, 1]` and the single `[1]`. -/
theorem merge_union_law_bug :
    mergeResultsFromMultiplePhotos [prPhotoX, prPhotoY] =
      Except.error "KeyError: id" ∧
    mergeResultsFromMultiplePhotos [prPhotoY, prPhotoX] =
      Except.error "KeyError: id" ∧
    presentIdsOf (matchFaces extXY (1/2) [exStudentX, exStudentY] [1, 2]) =
      presentIdsOf (matchFaces extXY (1/2) [exStudentX, exStudentY] [2, 1]) ∧
    presentIdsOf (matchFaces extXY (1/2) [exStudentX, exStudentY] [1, 1]) =
      presentIdsOf (matchFaces extXY (1/2) [exStudentX, exStudentY] [1]) := by
  refine ⟨?_, ?_, ?_, ?_⟩
  · norm_num [mergeResultsFromMultiplePhotos, mergePresentFold,
      getAbsentStudents, matchedToSRec, absentToSRec, prPhotoX, prPhotoY,
      List.foldl_cons, List.foldl_nil]
  · norm_num [mergeResultsFromMultiplePhotos, mergePresentFold,
      getAbsentStudents, matchedToSRec, absentToSRec, prPhotoX, prPhotoY,
      List.foldl_cons, List.foldl_nil]
  · norm_num [presentIdsOf, matchFaces, bProcessPhoto, bProcessFace,
      bestMatch, pmGet, pmSet, cosineSimilarity, dot, extXY, exStudentX,
      exStudentY, List.foldl_cons, List.foldl_nil, List.find?, List.any]
    decide
  · norm_num [presentIdsOf, matchFaces, bProcessPhoto, bProcessFace,
      bestMatch, pmGet, pmSet, cosineSimilarity, dot, extXY, exStudentX,
      exStudentY, List.foldl_cons, List.foldl_nil, List.find?, List.any]

/-- Externals for a session in which every photo fails to decode. -/
def extNoDecode : BExt where
  decode := fun _ => none
  detect := fun _ => []
  landmarksOf := fun _ => none
  align := fun _ _ => 0
  qualityOk := fun _ => false
  extract := fun _ => none
  cropOf := fun _ => none

/-- CLAIM C4 (code bug) — When zero photos are processed successfully, the
primary variant's fallback (`app/routers/attedance.py`) reports
`total_absent = 1` for a one-student roster while its `absent_students` list
is empty — the counts and the absent set contradict each other, so the
absent set is not the registered roster as claimed.  The backend variant
`match_faces` realizes the claimed fallback exactly: empty present set, the
whole roster absent, no unknown faces, and a normal return. -/
theorem zero_photos_fallback_bug :
    (sessionFallback [exStudentB]).totalAbsent = 1 ∧
    (sessionFallback [exStudentB]).absentStudents = [] ∧
    matchFaces extNoDecode (1/2) [exStudentB] [10, 11] =
      ⟨0, 1, 0, [], [⟨7, "B", "Y"⟩], []⟩ := by
  refine ⟨rfl, rfl, ?_⟩
  norm_num [matchFaces, bProcessPhoto, extNoDecode, exStudentB,
    List.foldl_cons, List.foldl_nil]

end PortHunter
